import Mathlib

/-!
Shallow embedding of the AssetPicker signal-computation core
(src/rsi.py, src/indicators.py, src/sectors.py) over exact rational
arithmetic, together with theorems settling the specification claims.
Python floats are modelled as rationals; `round(x, n)` is modelled as
round-to-nearest at `n` decimal places.
-/

namespace AssetPicker

/-- Model of Python `round(x, 4)`: round to nearest at 4 decimal places. -/
def round4 (x : ℚ) : ℚ := (round (x * 10000) : ℤ) / 10000

/-- Model of Python `round(x, 2)`: round to nearest at 2 decimal places. -/
def round2 (x : ℚ) : ℚ := (round (x * 100) : ℤ) / 100

theorem round_rat_mono {x y : ℚ} (h : x ≤ y) : round x ≤ round y := by
  rw [round_eq, round_eq]
  exact Int.floor_le_floor (by linarith)

theorem round4_mono {x y : ℚ} (h : x ≤ y) : round4 x ≤ round4 y := by
  unfold round4
  have h2 : round (x * 10000) ≤ round (y * 10000) :=
    round_rat_mono (by nlinarith)
  have h3 : ((round (x * 10000) : ℤ) : ℚ) ≤ ((round (y * 10000) : ℤ) : ℚ) := by
    exact_mod_cast h2
  linarith

theorem round4_strict {x y : ℚ} (h : x + 1/10000 ≤ y) : round4 x < round4 y := by
  unfold round4
  have h1 : x * 10000 + 1 ≤ y * 10000 := by nlinarith
  have h2 : round (x * 10000) + 1 ≤ round (y * 10000) := by
    have := round_rat_mono h1
    rwa [round_add_one] at this
  have h3 : ((round (x * 10000) : ℤ) : ℚ) + 1 ≤ ((round (y * 10000) : ℤ) : ℚ) := by
    exact_mod_cast h2
  linarith

/-! ### RSI engine (src/rsi.py) -/

/-- Price deltas: `[closes[i] - closes[i-1] for i in range(1, len(closes))]`. -/
def deltas (closes : List ℚ) : List ℚ :=
  (closes.zip (closes.drop 1)).map fun p => p.2 - p.1

/-- Gains: `[d if d > 0 else 0 for d in deltas]`. -/
def gainsOf (ds : List ℚ) : List ℚ := ds.map fun d => if 0 < d then d else 0

/-- Losses: `[-d if d < 0 else 0 for d in deltas]`. -/
def lossesOf (ds : List ℚ) : List ℚ := ds.map fun d => if d < 0 then -d else 0

/-- One step of Wilder smoothing: `avg = (avg*(period-1) + new)/period`. -/
def wilder (period : ℕ) (avg x : ℚ) : ℚ := (avg * ((period : ℚ) - 1) + x) / period

/-- RSI from final smoothed averages, including the `avg_loss == 0 → 100.0`
saturation branch of `calculate_rsi` / `calculate_rsi_history`. -/
def rsiOf (avgGain avgLoss : ℚ) : ℚ :=
  if avgLoss = 0 then 100 else 100 - 100 / (1 + avgGain / avgLoss)

/-- Seed average gain: `avg_gain = sum(gains[:period]) / period`. -/
def seedAvgGain (closes : List ℚ) (period : ℕ) : ℚ :=
  ((gainsOf (deltas closes)).take period).sum / period

/-- Seed average loss: `avg_loss = sum(losses[:period]) / period`. -/
def seedAvgLoss (closes : List ℚ) (period : ℕ) : ℚ :=
  ((lossesOf (deltas closes)).take period).sum / period

/-- Final smoothed average gain after the Wilder loop of `calculate_rsi`. -/
def finalAvgGain (closes : List ℚ) (period : ℕ) : ℚ :=
  ((gainsOf (deltas closes)).drop period).foldl (wilder period) (seedAvgGain closes period)

/-- Final smoothed average loss after the Wilder loop of `calculate_rsi`. -/
def finalAvgLoss (closes : List ℚ) (period : ℕ) : ℚ :=
  ((lossesOf (deltas closes)).drop period).foldl (wilder period) (seedAvgLoss closes period)

/-- `calculate_rsi` (src/rsi.py lines 6-44): Wilder smoothed RSI, `none` when
fewer than `period+1` closes. -/
def calculate_rsi (closes : List ℚ) (period : ℕ) : Option ℚ :=
  if closes.length < period + 1 then none
  else some (rsiOf (finalAvgGain closes period) (finalAvgLoss closes period))

/-- The loop of `calculate_rsi_history` from index `period` on: each step
updates both smoothed averages and appends the resulting RSI value. -/
def rsiSteps (period : ℕ) (avgGain avgLoss : ℚ) : List (ℚ × ℚ) → List ℚ
  | [] => []
  | gl :: rest =>
    rsiOf (wilder period avgGain gl.1) (wilder period avgLoss gl.2) ::
      rsiSteps period (wilder period avgGain gl.1) (wilder period avgLoss gl.2) rest

/-- `calculate_rsi_history` (src/rsi.py lines 47-89): all RSI values from the
first valid index on, empty when fewer than `period+1` closes. -/
def calculate_rsi_history (closes : List ℚ) (period : ℕ) : List ℚ :=
  if closes.length < period + 1 then []
  else
    rsiOf (seedAvgGain closes period) (seedAvgLoss closes period) ::
      rsiSteps period (seedAvgGain closes period) (seedAvgLoss closes period)
        (((gainsOf (deltas closes)).drop period).zip
          ((lossesOf (deltas closes)).drop period))

example : calculate_rsi [1, 2, 3] 2 = some 100 := by
  norm_num [calculate_rsi, finalAvgGain, finalAvgLoss, seedAvgGain, seedAvgLoss,
    deltas, gainsOf, lossesOf, rsiOf, wilder]
example : calculate_rsi_history [1, 2, 3, 2] 2 = [100, 50] := by
  norm_num [calculate_rsi_history, seedAvgGain, seedAvgLoss,
    deltas, gainsOf, lossesOf, rsiSteps, rsiOf, wilder]

/-! ### Lemmas about the RSI engine -/

theorem deltas_cons₂ (a b : ℚ) (l : List ℚ) :
    deltas (a :: b :: l) = (b - a) :: deltas (b :: l) := rfl

theorem deltas_nonneg {closes : List ℚ} (h : closes.Chain' (· ≤ ·)) :
    ∀ d ∈ deltas closes, 0 ≤ d := by
  induction closes with
  | nil => intro d hd; simp [deltas] at hd
  | cons a l ih =>
    cases l with
    | nil => intro d hd; simp [deltas] at hd
    | cons b t =>
      rw [List.chain'_cons] at h
      intro d hd
      rw [deltas_cons₂] at hd
      rcases List.mem_cons.mp hd with h1 | h1
      · subst h1; linarith [h.1]
      · exact ih h.2 d h1

theorem losses_eq_zero {closes : List ℚ} (h : closes.Chain' (· ≤ ·)) :
    ∀ x ∈ lossesOf (deltas closes), x = 0 := by
  intro x hx
  rcases List.mem_map.mp hx with ⟨d, hd, rfl⟩
  have hd0 : 0 ≤ d := deltas_nonneg h d hd
  simp [not_lt.mpr hd0]

theorem foldl_wilder_zero (period : ℕ) (l : List ℚ) (hl : ∀ x ∈ l, x = 0) :
    l.foldl (wilder period) 0 = 0 := by
  induction l with
  | nil => rfl
  | cons a t ih =>
    have ha : a = 0 := hl a (List.mem_cons_self _ _)
    have h0 : wilder period 0 a = 0 := by simp [wilder, ha]
    simp only [List.foldl_cons, h0]
    exact ih fun x hx => hl x (List.mem_cons_of_mem _ hx)

theorem rsiSteps_all_100 (period : ℕ) :
    ∀ (l : List (ℚ × ℚ)), (∀ p ∈ l, p.2 = 0) →
      ∀ ag, ∀ x ∈ rsiSteps period ag 0 l, x = 100
  | [], _, ag, x, hx => by simp [rsiSteps] at hx
  | gl :: rest, hl, ag, x, hx => by
    have h2 : gl.2 = 0 := hl gl (List.mem_cons_self _ _)
    have hw : wilder period 0 gl.2 = 0 := by simp [wilder, h2]
    rw [rsiSteps, hw] at hx
    rcases List.mem_cons.mp hx with h1 | h1
    · rw [h1, rsiOf, if_pos rfl]
    · exact rsiSteps_all_100 period rest
        (fun p hp => hl p (List.mem_cons_of_mem _ hp)) _ x h1

theorem finalAvgLoss_eq_zero {closes : List ℚ} (period : ℕ)
    (h : closes.Chain' (· ≤ ·)) : finalAvgLoss closes period = 0 := by
  have hloss := losses_eq_zero h
  have hsum : ((lossesOf (deltas closes)).take period).sum = 0 :=
    List.sum_eq_zero fun x hx => hloss x (List.mem_of_mem_take hx)
  rw [finalAvgLoss, seedAvgLoss, hsum, zero_div]
  exact foldl_wilder_zero _ _ fun x hx => hloss x (List.mem_of_mem_drop hx)

/-- C2: for every closes list of length at least `period+1` with no
close-to-close decrease, `calculate_rsi` returns exactly `100.0`, and every
entry of `calculate_rsi_history` is exactly `100.0` (the smoothed average
loss is 0 throughout, so the saturation branch fires everywhere). -/
theorem C2_rsi_saturates_at_100 (closes : List ℚ) (period : ℕ)
    (hlen : period + 1 ≤ closes.length) (hmono : closes.Chain' (· ≤ ·)) :
    calculate_rsi closes period = some 100 ∧
      ∀ x ∈ calculate_rsi_history closes period, x = 100 := by
  have hglt : ¬ closes.length < period + 1 := not_lt.mpr hlen
  have hloss := losses_eq_zero hmono
  have hseed : seedAvgLoss closes period = 0 := by
    rw [seedAvgLoss,
      List.sum_eq_zero fun x hx => hloss x (List.mem_of_mem_take hx), zero_div]
  constructor
  · rw [calculate_rsi, if_neg hglt, finalAvgLoss_eq_zero period hmono, rsiOf, if_pos rfl]
  · intro x hx
    rw [calculate_rsi_history, if_neg hglt, hseed] at hx
    rcases List.mem_cons.mp hx with h1 | h1
    · rw [h1, rsiOf, if_pos rfl]
    · refine rsiSteps_all_100 period _ ?_ _ x h1
      intro p hp
      exact hloss p.2 (List.mem_of_mem_drop (List.of_mem_zip hp).2)

/-- Closed witness for C2 at a concrete nondecreasing series. -/
theorem C2_rsi_saturates_at_100_witness :
    calculate_rsi [1, 1, 2] 1 = some 100 ∧
      ∀ x ∈ calculate_rsi_history [1, 1, 2] 1, x = 100 :=
  C2_rsi_saturates_at_100 [1, 1, 2] 1 (by norm_num)
    (by simp [List.chain'_cons])

theorem rsiSteps_length (period : ℕ) (ag al : ℚ) (l : List (ℚ × ℚ)) :
    (rsiSteps period ag al l).length = l.length := by
  induction l generalizing ag al with
  | nil => rfl
  | cons gl rest ih => simp [rsiSteps, ih]

theorem deltas_length (closes : List ℚ) :
    (deltas closes).length = closes.length - 1 := by
  simp [deltas]

/-- C3: the length of `calculate_rsi_history closes period` is exactly
`max 0 (len(closes) - period)`; in particular it is empty when fewer than
`period + 1` closes are supplied. -/
theorem C3_rsi_history_length (closes : List ℚ) (period : ℕ) (_hp : 1 ≤ period) :
    ((calculate_rsi_history closes period).length : ℤ) =
      max 0 ((closes.length : ℤ) - period) := by
  by_cases h : closes.length < period + 1
  · rw [calculate_rsi_history, if_pos h]
    simp only [List.length_nil, Nat.cast_zero]
    omega
  · rw [calculate_rsi_history, if_neg h]
    simp only [List.length_cons, rsiSteps_length, List.length_zip,
      List.length_drop, gainsOf, lossesOf, List.length_map, deltas_length]
    omega

/-- Closed witness for C3 on a concrete series. -/
theorem C3_rsi_history_length_witness :
    ((calculate_rsi_history [1, 2, 3, 2] 2).length : ℤ) =
      max 0 (((4 : ℕ) : ℤ) - 2) := by
  have h := C3_rsi_history_length [1, 2, 3, 2] 2 (by norm_num)
  simpa using h

theorem deltas_scale (closes : List ℚ) (k : ℚ) :
    deltas (closes.map fun c => c * k) = (deltas closes).map fun d => d * k := by
  unfold deltas
  rw [← List.map_drop, List.zip_map, List.map_map, List.map_map]
  congr 1
  funext p
  simp [Prod.map]
  ring

theorem gainsOf_scale (ds : List ℚ) (k : ℚ) (hk : 0 < k) :
    gainsOf (ds.map fun d => d * k) = (gainsOf ds).map fun g => g * k := by
  unfold gainsOf
  rw [List.map_map, List.map_map]
  congr 1
  funext d
  simp only [Function.comp_apply]
  by_cases hd : 0 < d
  · rw [if_pos hd, if_pos (mul_pos hd hk)]
  · rw [if_neg hd, if_neg fun h => hd ((mul_pos_iff_of_pos_right hk).mp h), zero_mul]

theorem lossesOf_scale (ds : List ℚ) (k : ℚ) (hk : 0 < k) :
    lossesOf (ds.map fun d => d * k) = (lossesOf ds).map fun g => g * k := by
  unfold lossesOf
  rw [List.map_map, List.map_map]
  congr 1
  funext d
  simp only [Function.comp_apply]
  by_cases hd : d < 0
  · rw [if_pos hd, if_pos (by nlinarith), neg_mul]
  · rw [if_neg hd, if_neg (by intro h; exact hd (by nlinarith)), zero_mul]

theorem foldl_wilder_scale (period : ℕ) (k : ℚ) (l : List ℚ) :
    ∀ a, (l.map fun x => x * k).foldl (wilder period) (a * k) =
      l.foldl (wilder period) a * k := by
  induction l with
  | nil => intro a; rfl
  | cons x t ih =>
    intro a
    simp only [List.map_cons, List.foldl_cons]
    rw [show wilder period (a * k) (x * k) = wilder period a x * k by unfold wilder; ring]
    exact ih _

theorem sum_take_scale (l : List ℚ) (n : ℕ) (k : ℚ) :
    ((l.map fun x => x * k).take n).sum = (l.take n).sum * k := by
  rw [← List.map_take, List.sum_map_mul_right]
  simp

theorem rsiOf_scale (g l k : ℚ) (hk : k ≠ 0) : rsiOf (g * k) (l * k) = rsiOf g l := by
  unfold rsiOf
  by_cases hl : l = 0
  · simp [hl]
  · rw [if_neg (mul_ne_zero hl hk), if_neg hl, mul_div_mul_right _ _ hk]

theorem finalAvgGain_scale (closes : List ℚ) (period : ℕ) (k : ℚ) (hk : 0 < k) :
    finalAvgGain (closes.map fun c => c * k) period = finalAvgGain closes period * k := by
  unfold finalAvgGain seedAvgGain
  rw [deltas_scale, gainsOf_scale _ _ hk, ← List.map_drop, sum_take_scale,
    show ((gainsOf (deltas closes)).take period).sum * k / period =
      ((gainsOf (deltas closes)).take period).sum / period * k by ring]
  exact foldl_wilder_scale period k _ _

theorem finalAvgLoss_scale (closes : List ℚ) (period : ℕ) (k : ℚ) (hk : 0 < k) :
    finalAvgLoss (closes.map fun c => c * k) period = finalAvgLoss closes period * k := by
  unfold finalAvgLoss seedAvgLoss
  rw [deltas_scale, lossesOf_scale _ _ hk, ← List.map_drop, sum_take_scale,
    show ((lossesOf (deltas closes)).take period).sum * k / period =
      ((lossesOf (deltas closes)).take period).sum / period * k by ring]
  exact foldl_wilder_scale period k _ _

/-- C4: RSI is invariant to the absolute price scale: scaling every close by
a positive factor `k` leaves `calculate_rsi` unchanged. -/
theorem C4_rsi_scale_invariant (closes : List ℚ) (period : ℕ) (k : ℚ)
    (hk : 0 < k) (_hp : 1 ≤ period) :
    calculate_rsi (closes.map fun c => c * k) period = calculate_rsi closes period := by
  unfold calculate_rsi
  rw [List.length_map]
  by_cases h : closes.length < period + 1
  · rw [if_pos h, if_pos h]
  · rw [if_neg h, if_neg h, finalAvgGain_scale _ _ _ hk, finalAvgLoss_scale _ _ _ hk,
      rsiOf_scale _ _ _ (ne_of_gt hk)]

/-- Closed witness for C4 at a concrete series and scale factor. -/
theorem C4_rsi_scale_invariant_witness :
    calculate_rsi ([1, 2, 3, 2].map fun c => c * 2) 2 = calculate_rsi [1, 2, 3, 2] 2 :=
  C4_rsi_scale_invariant [1, 2, 3, 2] 2 2 (by norm_num) (by norm_num)

/-! ### Opportunity composer (src/indicators.py `calculate_opportunity_score`) -/

/-- Inputs of `calculate_opportunity_score` (the `factors` dict; a missing key
reads as its `.get` default, so the record carries the read value). -/
structure Factors where
  zscore : ℚ
  days_in_zone : ℕ
  weekly_extreme : Bool
  divergence_score : ℕ
  volatility_compressed : Bool
  sector_turning : Bool
  funding_aligned : Bool
  decorrelation_positive : Bool

/-- Base score: `abs(zscore) if zscore != 0 else 1.0`. -/
def baseScoreOf (z : ℚ) : ℚ := if z ≠ 0 then |z| else 1

/-- Freshness decay steps of `calculate_opportunity_score` (lines 748-759). -/
def freshnessOf (days : ℕ) : ℚ :=
  if days ≤ 2 then 1
  else if days ≤ 6 then 0.8
  else if days ≤ 10 then 0.6
  else if days ≤ 13 then 0.4
  else 0.3

/-- Confluence multiplier: starts at 1.0 and accumulates the additive bonuses
of lines 761-797 (weekly extreme +0.2, divergence tier +0.3 or +0.5,
compressed volatility +0.2, sector turning +0.1, funding aligned +0.2,
positive decorrelation +0.2). -/
def confluenceOf (f : Factors) : ℚ :=
  1 + (if f.weekly_extreme then 0.2 else 0)
    + (if 4 ≤ f.divergence_score then 0.5 else if 1 ≤ f.divergence_score then 0.3 else 0)
    + (if f.volatility_compressed then 0.2 else 0)
    + (if f.sector_turning then 0.1 else 0)
    + (if f.funding_aligned then 0.2 else 0)
    + (if f.decorrelation_positive then 0.2 else 0)

/-- Output record of `calculate_opportunity_score` (the `factors` breakdown
dict is omitted; only numeric fields are modelled). -/
structure OppScore where
  base_score : ℚ
  freshness_multiplier : ℚ
  confluence_multiplier : ℚ
  final_score : ℚ

/-- `calculate_opportunity_score` (src/indicators.py lines 721-808). -/
def calculate_opportunity_score (f : Factors) : OppScore :=
  { base_score := round4 (baseScoreOf f.zscore)
    freshness_multiplier := freshnessOf f.days_in_zone
    confluence_multiplier := round2 (confluenceOf f)
    final_score :=
      round4 (baseScoreOf f.zscore * freshnessOf f.days_in_zone * confluenceOf f) }

theorem freshnessOf_bounds (d : ℕ) : 3/10 ≤ freshnessOf d ∧ freshnessOf d ≤ 1 := by
  unfold freshnessOf
  split_ifs <;> norm_num

theorem one_le_confluenceOf (f : Factors) : 1 ≤ confluenceOf f := by
  unfold confluenceOf
  split_ifs <;> norm_num

theorem baseScoreOf_nonneg (z : ℚ) : 0 ≤ baseScoreOf z := by
  unfold baseScoreOf
  split_ifs <;> [exact abs_nonneg z; norm_num]

theorem freshness_drop {d d' : ℕ}
    (h : (d ≤ 2 ∧ 2 < d') ∨ (2 < d ∧ d ≤ 6 ∧ 6 < d') ∨
      (6 < d ∧ d ≤ 10 ∧ 10 < d') ∨ (10 < d ∧ d ≤ 13 ∧ 13 < d')) :
    freshnessOf d' + 1/10 ≤ freshnessOf d := by
  unfold freshnessOf
  rcases h with ⟨h1, h2⟩ | ⟨h1, h2, h3⟩ | ⟨h1, h2, h3⟩ | ⟨h1, h2, h3⟩ <;>
    split_ifs <;> first | omega | norm_num

/-- C1 (amended): with `|zscore| ≥ 0.001` and fixed confluence flags,
increasing `days_in_zone` past each decay boundary (2, 6, 10, 13) strictly
decreases the returned `final_score`; the 0.001 bound makes the 0.1-step
freshness decrease survive the 4-decimal rounding of `final_score`. -/
theorem C1_freshness_decay_strict (f : Factors) (d2 : ℕ)
    (hz : 1/1000 ≤ |f.zscore|)
    (hcross : (f.days_in_zone ≤ 2 ∧ 2 < d2) ∨
      (2 < f.days_in_zone ∧ f.days_in_zone ≤ 6 ∧ 6 < d2) ∨
      (6 < f.days_in_zone ∧ f.days_in_zone ≤ 10 ∧ 10 < d2) ∨
      (10 < f.days_in_zone ∧ f.days_in_zone ≤ 13 ∧ 13 < d2)) :
    (calculate_opportunity_score { f with days_in_zone := d2 }).final_score <
      (calculate_opportunity_score f).final_score := by
  have hzne : f.zscore ≠ 0 := by
    intro h0
    rw [h0] at hz
    norm_num at hz
  simp only [calculate_opportunity_score]
  apply round4_strict
  have hb : 1/1000 ≤ baseScoreOf f.zscore := by
    rw [baseScoreOf, if_pos hzne]
    exact hz
  have hc : 1 ≤ confluenceOf f := one_le_confluenceOf f
  have hcrec : confluenceOf { f with days_in_zone := d2 } = confluenceOf f := rfl
  rw [hcrec]
  have hfd : freshnessOf d2 + 1/10 ≤ freshnessOf f.days_in_zone := freshness_drop hcross
  have hf2 : 0 ≤ freshnessOf d2 := le_trans (by norm_num) (freshnessOf_bounds d2).1
  have hbc : 1/1000 ≤ baseScoreOf f.zscore * confluenceOf f := by nlinarith
  nlinarith [mul_le_mul_of_nonneg_left hfd
    (le_trans (by norm_num : (0:ℚ) ≤ 1/1000) hbc)]

/-- C1 witness: a concrete crossing of the first decay boundary with a
large-enough zscore strictly decreases the rounded final score. -/
theorem C1_freshness_decay_strict_witness :
    (calculate_opportunity_score
      { ({ zscore := 2, days_in_zone := 2, weekly_extreme := false,
           divergence_score := 0, volatility_compressed := false,
           sector_turning := false, funding_aligned := false,
           decorrelation_positive := false } : Factors) with days_in_zone := 3 }).final_score <
      (calculate_opportunity_score
        { zscore := 2, days_in_zone := 2, weekly_extreme := false,
          divergence_score := 0, volatility_compressed := false,
          sector_turning := false, funding_aligned := false,
          decorrelation_positive := false }).final_score :=
  C1_freshness_decay_strict _ 3 (by norm_num) (Or.inl (by norm_num))

/-- C1 counterexample: the claim as stated fails for the nonzero zscore
`1/100000`: both `days_in_zone = 2` and `days_in_zone = 3` produce a
`final_score` that rounds to `0.0`, so crossing the first decay boundary
does not strictly decrease the returned value. -/
theorem C1_counterexample :
    ¬ (calculate_opportunity_score
        { zscore := 1/100000, days_in_zone := 3, weekly_extreme := false,
          divergence_score := 0, volatility_compressed := false,
          sector_turning := false, funding_aligned := false,
          decorrelation_positive := false }).final_score <
      (calculate_opportunity_score
        { zscore := 1/100000, days_in_zone := 2, weekly_extreme := false,
          divergence_score := 0, volatility_compressed := false,
          sector_turning := false, funding_aligned := false,
          decorrelation_positive := false }).final_score := by
  norm_num [calculate_opportunity_score, baseScoreOf, freshnessOf, confluenceOf,
    round4, round_eq, abs_of_nonneg]

theorem if_bool_bonus_mono {a b : Bool} (h : a = true → b = true) {x : ℚ}
    (hx : 0 ≤ x) : (if a then x else 0) ≤ (if b then x else 0) := by
  cases a with
  | false => cases b <;> simp [hx]
  | true => rw [h rfl]

theorem divergence_bonus_mono {m n : ℕ} (h : m ≤ n) :
    (if 4 ≤ m then (0.5 : ℚ) else if 1 ≤ m then 0.3 else 0) ≤
      (if 4 ≤ n then (0.5 : ℚ) else if 1 ≤ n then 0.3 else 0) := by
  split_ifs <;> first | omega | norm_num

/-- C7: holding the supplied zscore and days_in_zone fixed, turning any
additional confluence factor true (or raising the divergence tier) never
decreases the returned `final_score`. -/
theorem C7_confluence_monotone (f g : Factors)
    (hz : g.zscore = f.zscore) (hd : g.days_in_zone = f.days_in_zone)
    (h1 : f.weekly_extreme = true → g.weekly_extreme = true)
    (h2 : f.divergence_score ≤ g.divergence_score)
    (h3 : f.volatility_compressed = true → g.volatility_compressed = true)
    (h4 : f.sector_turning = true → g.sector_turning = true)
    (h5 : f.funding_aligned = true → g.funding_aligned = true)
    (h6 : f.decorrelation_positive = true → g.decorrelation_positive = true) :
    (calculate_opportunity_score f).final_score ≤
      (calculate_opportunity_score g).final_score := by
  have hconf : confluenceOf f ≤ confluenceOf g := by
    unfold confluenceOf
    exact add_le_add (add_le_add (add_le_add (add_le_add (add_le_add
      (add_le_add le_rfl (if_bool_bonus_mono h1 (by norm_num)))
      (divergence_bonus_mono h2))
      (if_bool_bonus_mono h3 (by norm_num)))
      (if_bool_bonus_mono h4 (by norm_num)))
      (if_bool_bonus_mono h5 (by norm_num)))
      (if_bool_bonus_mono h6 (by norm_num))
  simp only [calculate_opportunity_score, hz, hd]
  apply round4_mono
  have hbf : 0 ≤ baseScoreOf f.zscore * freshnessOf f.days_in_zone :=
    mul_nonneg (baseScoreOf_nonneg _)
      (le_trans (by norm_num) (freshnessOf_bounds f.days_in_zone).1)
  exact mul_le_mul_of_nonneg_left hconf hbf

/-- C7 witness: turning the weekly-extreme flag on at fixed zscore and
days_in_zone does not decrease the final score. -/
theorem C7_confluence_monotone_witness :
    (calculate_opportunity_score
      { zscore := 2, days_in_zone := 1, weekly_extreme := false,
        divergence_score := 0, volatility_compressed := false,
        sector_turning := false, funding_aligned := false,
        decorrelation_positive := false }).final_score ≤
      (calculate_opportunity_score
        { zscore := 2, days_in_zone := 1, weekly_extreme := true,
          divergence_score := 0, volatility_compressed := false,
          sector_turning := false, funding_aligned := false,
          decorrelation_positive := false }).final_score :=
  C7_confluence_monotone _ _ rfl rfl (fun _ => rfl) (le_refl 0) id id id id

/-! ### Divergence detector (src/indicators.py `detect_divergence`) -/

/-- Divergence type tag of `detect_divergence`. -/
inductive DivType
  | bullish
  | bearish
  | none
deriving DecidableEq

/-- Result record of `detect_divergence` (the description string is UI text
and is omitted). -/
structure DivResult where
  type : DivType
  strength : ℕ
deriving DecidableEq

/-- Interior 3-point local minima of `find_local_lows`:
`v[i] < v[i-1] and v[i] <= v[i+1]` for `i in range(1, len-1)`. -/
def interiorLows (values : List ℚ) : List (ℕ × ℚ) :=
  (List.range' 1 (values.length - 2)).filterMap fun i =>
    if values.getD i 0 < values.getD (i - 1) 0 ∧ values.getD i 0 ≤ values.getD (i + 1) 0
    then some (i, values.getD i 0) else none

/-- Interior 3-point local maxima of `find_local_highs`:
`v[i] > v[i-1] and v[i] >= v[i+1]` for `i in range(1, len-1)`. -/
def interiorHighs (values : List ℚ) : List (ℕ × ℚ) :=
  (List.range' 1 (values.length - 2)).filterMap fun i =>
    if values.getD (i - 1) 0 < values.getD i 0 ∧ values.getD (i + 1) 0 ≤ values.getD i 0
    then some (i, values.getD i 0) else none

/-- `find_local_lows` (src/indicators.py lines 419-431): interior minima plus
the endpoint checks (`v[0] < v[1]` inserted in front, `v[-1] < v[-2]`
appended at the end, both only when the window has at least 2 points). -/
def find_local_lows (values : List ℚ) : List (ℕ × ℚ) :=
  (if 2 ≤ values.length ∧ values.getD 0 0 < values.getD 1 0
   then (0, values.getD 0 0) :: interiorLows values else interiorLows values) ++
  (if 2 ≤ values.length ∧
      values.getD (values.length - 1) 0 < values.getD (values.length - 2) 0
   then [(values.length - 1, values.getD (values.length - 1) 0)] else [])

/-- `find_local_highs` (src/indicators.py lines 433-445). -/
def find_local_highs (values : List ℚ) : List (ℕ × ℚ) :=
  (if 2 ≤ values.length ∧ values.getD 1 0 < values.getD 0 0
   then (0, values.getD 0 0) :: interiorHighs values else interiorHighs values) ++
  (if 2 ≤ values.length ∧
      values.getD (values.length - 2) 0 < values.getD (values.length - 1) 0
   then [(values.length - 1, values.getD (values.length - 1) 0)] else [])

/-- Trailing window `xs[-lookback:]`; Python's `xs[-0:]` is the whole list. -/
def tailWindow (lookback : ℕ) (xs : List ℚ) : List ℚ :=
  if lookback = 0 then xs else xs.drop (xs.length - lookback)

/-- Bullish branch of `detect_divergence` (lines 447-468): at least two price
local lows, a lower low in price and a higher low in RSI; strength 2 when the
RSI gap is at least 5. -/
def bullishCheck (prices rsis : List ℚ) : Option DivResult :=
  if 2 ≤ (find_local_lows prices).length then
    if ((find_local_lows prices).getLastD (0, 0)).2 <
        ((find_local_lows prices).headD (0, 0)).2 then
      if rsis.getD ((find_local_lows prices).headD (0, 0)).1 0 <
          rsis.getD ((find_local_lows prices).getLastD (0, 0)).1 0 then
        some ⟨DivType.bullish,
          if 5 ≤ rsis.getD ((find_local_lows prices).getLastD (0, 0)).1 0 -
              rsis.getD ((find_local_lows prices).headD (0, 0)).1 0 then 2 else 1⟩
      else Option.none
    else Option.none
  else Option.none

/-- Bearish branch of `detect_divergence` (lines 470-491): at least two price
local highs, a higher high in price and a lower high in RSI. -/
def bearishCheck (prices rsis : List ℚ) : Option DivResult :=
  if 2 ≤ (find_local_highs prices).length then
    if ((find_local_highs prices).headD (0, 0)).2 <
        ((find_local_highs prices).getLastD (0, 0)).2 then
      if rsis.getD ((find_local_highs prices).getLastD (0, 0)).1 0 <
          rsis.getD ((find_local_highs prices).headD (0, 0)).1 0 then
        some ⟨DivType.bearish,
          if 5 ≤ rsis.getD ((find_local_highs prices).headD (0, 0)).1 0 -
              rsis.getD ((find_local_highs prices).getLastD (0, 0)).1 0 then 2 else 1⟩
      else Option.none
    else Option.none
  else Option.none

/-- `detect_divergence` (src/indicators.py lines 389-496): bullish branch
first, then bearish, else the no-divergence record; `none` on insufficient
or mismatched input lengths. -/
def detect_divergence (price_history rsi_history : List ℚ) (lookback : ℕ) :
    Option DivResult :=
  if price_history.length < lookback ∨ rsi_history.length < lookback then Option.none
  else if price_history.length ≠ rsi_history.length then Option.none
  else
    match bullishCheck (tailWindow lookback price_history)
        (tailWindow lookback rsi_history) with
    | some r => some r
    | Option.none =>
      match bearishCheck (tailWindow lookback price_history)
          (tailWindow lookback rsi_history) with
      | some r => some r
      | Option.none => some ⟨DivType.none, 0⟩

/-- Qualifying bullish pattern in a window, exactly as tested by the bullish
branch of `detect_divergence`. -/
def bullishQualifies (prices rsis : List ℚ) : Prop :=
  2 ≤ (find_local_lows prices).length ∧
  ((find_local_lows prices).getLastD (0, 0)).2 <
    ((find_local_lows prices).headD (0, 0)).2 ∧
  rsis.getD ((find_local_lows prices).headD (0, 0)).1 0 <
    rsis.getD ((find_local_lows prices).getLastD (0, 0)).1 0

/-- Qualifying bearish pattern in a window, exactly as tested by the bearish
branch of `detect_divergence`. -/
def bearishQualifies (prices rsis : List ℚ) : Prop :=
  2 ≤ (find_local_highs prices).length ∧
  ((find_local_highs prices).headD (0, 0)).2 <
    ((find_local_highs prices).getLastD (0, 0)).2 ∧
  rsis.getD ((find_local_highs prices).getLastD (0, 0)).1 0 <
    rsis.getD ((find_local_highs prices).headD (0, 0)).1 0

theorem bullishCheck_of_qualifies {prices rsis : List ℚ}
    (h : bullishQualifies prices rsis) :
    bullishCheck prices rsis =
      some ⟨DivType.bullish,
        if 5 ≤ rsis.getD ((find_local_lows prices).getLastD (0, 0)).1 0 -
            rsis.getD ((find_local_lows prices).headD (0, 0)).1 0 then 2 else 1⟩ := by
  obtain ⟨h1, h2, h3⟩ := h
  rw [bullishCheck, if_pos h1, if_pos h2, if_pos h3]

/-- C5: whenever the trailing window holds both a qualifying bullish pattern
and a qualifying bearish pattern, `detect_divergence` reports bullish (the
bullish branch is evaluated first; first match wins). -/
theorem C5_bullish_wins (price_history rsi_history : List ℚ) (lookback : ℕ)
    (hp : lookback ≤ price_history.length)
    (heq : price_history.length = rsi_history.length)
    (hbull : bullishQualifies (tailWindow lookback price_history)
      (tailWindow lookback rsi_history))
    (_hbear : bearishQualifies (tailWindow lookback price_history)
      (tailWindow lookback rsi_history)) :
    ∃ r, detect_divergence price_history rsi_history lookback = some r ∧
      r.type = DivType.bullish := by
  rw [detect_divergence, if_neg (by omega), if_neg (by omega),
    bullishCheck_of_qualifies hbull]
  exact ⟨_, rfl, rfl⟩

/-- C5 witness: a concrete window where both patterns qualify and the result
is bullish. -/
theorem C5_bullish_wins_witness :
    ∃ r, detect_divergence [2, 5, 1, 6, 0] [10, 50, 30, 40, 20] 5 = some r ∧
      r.type = DivType.bullish :=
  C5_bullish_wins [2, 5, 1, 6, 0] [10, 50, 30, 40, 20] 5 (by norm_num) (by norm_num)
    (by norm_num [bullishQualifies, tailWindow, find_local_lows, interiorLows,
      List.range', List.filterMap_cons])
    (by norm_num [bearishQualifies, tailWindow, find_local_highs, interiorHighs,
      List.range', List.filterMap_cons])

/-- Strictly increasing series, stated positionally over `getD`. -/
def StrictIncrList (l : List ℚ) : Prop :=
  ∀ i, i + 1 < l.length → l.getD i 0 < l.getD (i + 1) 0

/-- Strictly decreasing series, stated positionally over `getD`. -/
def StrictDecrList (l : List ℚ) : Prop :=
  ∀ i, i + 1 < l.length → l.getD (i + 1) 0 < l.getD i 0

theorem getD_drop (l : List ℚ) (k i : ℕ) :
    (l.drop k).getD i 0 = l.getD (k + i) 0 := by
  rw [List.getD_eq_getElem?_getD, List.getD_eq_getElem?_getD, List.getElem?_drop]

theorem strictIncrList_drop {l : List ℚ} (h : StrictIncrList l) (k : ℕ) :
    StrictIncrList (l.drop k) := by
  intro i hi
  rw [List.length_drop] at hi
  rw [getD_drop, getD_drop, show k + (i + 1) = (k + i) + 1 by omega]
  exact h (k + i) (by omega)

theorem strictDecrList_drop {l : List ℚ} (h : StrictDecrList l) (k : ℕ) :
    StrictDecrList (l.drop k) := by
  intro i hi
  rw [List.length_drop] at hi
  rw [getD_drop, getD_drop, show k + (i + 1) = (k + i) + 1 by omega]
  exact h (k + i) (by omega)

theorem interiorLows_of_incr {l : List ℚ} (h : StrictIncrList l) :
    interiorLows l = [] := by
  rw [interiorLows, List.filterMap_eq_nil_iff]
  intro i hi
  rw [List.mem_range'] at hi
  have hlt : l.getD (i - 1) 0 < l.getD i 0 := by
    have := h (i - 1) (by omega)
    rwa [show i - 1 + 1 = i by omega] at this
  rw [if_neg]
  rintro ⟨h1, _⟩
  linarith

theorem interiorLows_of_decr {l : List ℚ} (h : StrictDecrList l) :
    interiorLows l = [] := by
  rw [interiorLows, List.filterMap_eq_nil_iff]
  intro i hi
  rw [List.mem_range'] at hi
  have hlt : l.getD (i + 1) 0 < l.getD i 0 := h i (by omega)
  rw [if_neg]
  rintro ⟨_, h2⟩
  linarith

theorem interiorHighs_of_incr {l : List ℚ} (h : StrictIncrList l) :
    interiorHighs l = [] := by
  rw [interiorHighs, List.filterMap_eq_nil_iff]
  intro i hi
  rw [List.mem_range'] at hi
  have hlt : l.getD i 0 < l.getD (i + 1) 0 := h i (by omega)
  rw [if_neg]
  rintro ⟨_, h2⟩
  linarith

theorem interiorHighs_of_decr {l : List ℚ} (h : StrictDecrList l) :
    interiorHighs l = [] := by
  rw [interiorHighs, List.filterMap_eq_nil_iff]
  intro i hi
  rw [List.mem_range'] at hi
  have hlt : l.getD i 0 < l.getD (i - 1) 0 := by
    have := h (i - 1) (by omega)
    rwa [show i - 1 + 1 = i by omega] at this
  rw [if_neg]
  rintro ⟨h1, _⟩
  linarith

theorem find_local_lows_short_of_mono {l : List ℚ}
    (h : StrictIncrList l ∨ StrictDecrList l) :
    (find_local_lows l).length ≤ 1 := by
  rcases h with h | h
  · rw [find_local_lows, interiorLows_of_incr h]
    have hend : ¬ (2 ≤ l.length ∧
        l.getD (l.length - 1) 0 < l.getD (l.length - 2) 0) := by
      rintro ⟨h2, hlt⟩
      have := h (l.length - 2) (by omega)
      rw [show l.length - 2 + 1 = l.length - 1 by omega] at this
      linarith
    rw [if_neg hend]
    split_ifs <;> simp
  · rw [find_local_lows, interiorLows_of_decr h]
    have hfront : ¬ (2 ≤ l.length ∧ l.getD 0 0 < l.getD 1 0) := by
      rintro ⟨h2, hlt⟩
      have := h 0 (by omega)
      linarith
    rw [if_neg hfront]
    split_ifs <;> simp

theorem find_local_highs_short_of_mono {l : List ℚ}
    (h : StrictIncrList l ∨ StrictDecrList l) :
    (find_local_highs l).length ≤ 1 := by
  rcases h with h | h
  · rw [find_local_highs, interiorHighs_of_incr h]
    have hfront : ¬ (2 ≤ l.length ∧ l.getD 1 0 < l.getD 0 0) := by
      rintro ⟨h2, hlt⟩
      have := h 0 (by omega)
      linarith
    rw [if_neg hfront]
    split_ifs <;> simp
  · rw [find_local_highs, interiorHighs_of_decr h]
    have hend : ¬ (2 ≤ l.length ∧
        l.getD (l.length - 2) 0 < l.getD (l.length - 1) 0) := by
      rintro ⟨h2, hlt⟩
      have := h (l.length - 2) (by omega)
      rw [show l.length - 2 + 1 = l.length - 1 by omega] at this
      linarith
    rw [if_neg hend]
    split_ifs <;> simp

theorem tailWindow_mono {l : List ℚ} (h : StrictIncrList l ∨ StrictDecrList l)
    (lookback : ℕ) :
    StrictIncrList (tailWindow lookback l) ∨ StrictDecrList (tailWindow lookback l) := by
  rw [tailWindow]
  split_ifs
  · exact h
  · rcases h with h | h
    · exact Or.inl (strictIncrList_drop h _)
    · exact Or.inr (strictDecrList_drop h _)

/-- C6: on strictly monotonic price and RSI series of equal length at least
`lookback`, `detect_divergence` returns the no-divergence record
`{type: none, strength: 0}`. -/
theorem C6_monotonic_no_divergence (price_history rsi_history : List ℚ)
    (lookback : ℕ) (hp : lookback ≤ price_history.length)
    (heq : price_history.length = rsi_history.length)
    (hmono : StrictIncrList price_history ∨ StrictDecrList price_history)
    (_hrmono : StrictIncrList rsi_history ∨ StrictDecrList rsi_history) :
    detect_divergence price_history rsi_history lookback =
      some ⟨DivType.none, 0⟩ := by
  have hlows := find_local_lows_short_of_mono (tailWindow_mono hmono lookback)
  have hhighs := find_local_highs_short_of_mono (tailWindow_mono hmono lookback)
  rw [detect_divergence, if_neg (by omega), if_neg (by omega),
    bullishCheck, if_neg (by omega), bearishCheck, if_neg (by omega)]

/-- C6 witness: strictly increasing prices with strictly decreasing RSI give
no divergence. -/
theorem C6_monotonic_no_divergence_witness :
    detect_divergence [1, 2, 3] [5, 4, 3] 3 = some ⟨DivType.none, 0⟩ :=
  C6_monotonic_no_divergence [1, 2, 3] [5, 4, 3] 3 (by norm_num) (by norm_num)
    (Or.inl (by
      intro i hi
      simp only [List.length_cons, List.length_nil] at hi
      rcases i with _ | _ | i
      · norm_num [List.getD]
      · norm_num [List.getD]
      · omega))
    (Or.inr (by
      intro i hi
      simp only [List.length_cons, List.length_nil] at hi
      rcases i with _ | _ | i
      · norm_num [List.getD]
      · norm_num [List.getD]
      · omega))

/-! ### Signal lifecycle (src/indicators.py `classify_signal_lifecycle`) -/

/-- Lifecycle state tags of `classify_signal_lifecycle`. -/
inductive LifState
  | fresh
  | confirmed
  | extended
  | resolving
  | none
deriving DecidableEq

/-- Result record of `classify_signal_lifecycle` (the emoji field is UI text
and is omitted). -/
structure LifecycleResult where
  state : LifState
  days_in_zone : ℕ
  entry_rsi : ℚ
  current_rsi : ℚ
deriving DecidableEq

/-- Extremity predicate `is_extreme`: `rsi < threshold` for oversold,
`rsi > threshold` for overbought. -/
def isExtremeRsi (threshold : ℚ) (is_oversold : Bool) (rsi : ℚ) : Bool :=
  if is_oversold then decide (rsi < threshold) else decide (threshold < rsi)

/-- Backward-walk count of consecutive extreme periods from the end
(lines 531-540): length of the longest extreme suffix. -/
def daysInZone (rsi_history : List ℚ) (threshold : ℚ) (os : Bool) : ℕ :=
  (rsi_history.reverse.takeWhile (isExtremeRsi threshold os)).length

/-- Entry RSI recorded by the backward walk: the oldest value of the extreme
suffix, defaulting to the current RSI when the count is zero. -/
def entryRsi (rsi_history : List ℚ) (threshold : ℚ) (os : Bool) : ℚ :=
  (rsi_history.reverse.takeWhile (isExtremeRsi threshold os)).getLastD
    (rsi_history.getLastD 0)

/-- Resolving override of lines 542-556: zero days in zone, an extreme value
one or two periods back, and the series now moving back toward 50. -/
def resolvingCond (rsi_history : List ℚ) (threshold : ℚ) (os : Bool) : Bool :=
  decide (daysInZone rsi_history threshold os = 0) &&
  decide (2 ≤ rsi_history.length) &&
  (isExtremeRsi threshold os (rsi_history.getD (rsi_history.length - 2) 0) ||
    (decide (3 ≤ rsi_history.length) &&
      isExtremeRsi threshold os (rsi_history.getD (rsi_history.length - 3) 0))) &&
  (if os then decide (rsi_history.getD (rsi_history.length - 2) 0 < rsi_history.getLastD 0)
   else decide (rsi_history.getLastD 0 < rsi_history.getD (rsi_history.length - 2) 0))

/-- Non-resolving state chain of lines 566-573: 0 days in zone is `none`,
1-2 is `fresh`, 3-5 is `confirmed`, 6 or more is `extended`. -/
def stateOfDays (days : ℕ) : LifState :=
  if days = 0 then LifState.none
  else if days ≤ 2 then LifState.fresh
  else if days ≤ 5 then LifState.confirmed
  else LifState.extended

/-- `classify_signal_lifecycle` (src/indicators.py lines 499-590), `none`
when fewer than 5 RSI values are supplied. When resolving, the entry RSI is
re-found as the most recent extreme value before the last period. -/
def classify_signal_lifecycle (rsi_history : List ℚ) (extreme_threshold : ℚ)
    (is_oversold : Bool) : Option LifecycleResult :=
  if rsi_history.length < 5 then Option.none
  else
    some ⟨(if resolvingCond rsi_history extreme_threshold is_oversold
           then LifState.resolving
           else stateOfDays (daysInZone rsi_history extreme_threshold is_oversold)),
          daysInZone rsi_history extreme_threshold is_oversold,
          round2 (if resolvingCond rsi_history extreme_threshold is_oversold
            then (rsi_history.dropLast.reverse.find?
                (isExtremeRsi extreme_threshold is_oversold)).getD
                (entryRsi rsi_history extreme_threshold is_oversold)
            else entryRsi rsi_history extreme_threshold is_oversold),
          round2 (rsi_history.getLastD 0)⟩

/-- C8: `classify_signal_lifecycle` on `[35,32,28,25,22]` with threshold 30
and oversold mode returns `days_in_zone = 3` and state `confirmed`; in
general, with at least 5 values and the resolving override not applying, the
trailing count of consecutive extreme values maps to the state as 0 → none,
1-2 → fresh, 3-5 → confirmed, 6+ → extended. -/
theorem C8_lifecycle_states :
    (∃ r, classify_signal_lifecycle [35, 32, 28, 25, 22] 30 true = some r ∧
      r.days_in_zone = 3 ∧ r.state = LifState.confirmed) ∧
    ∀ (h : List ℚ) (th : ℚ) (os : Bool), 5 ≤ h.length →
      resolvingCond h th os = false →
      ∃ r, classify_signal_lifecycle h th os = some r ∧
        r.days_in_zone = daysInZone h th os ∧
        r.state = stateOfDays (daysInZone h th os) := by
  constructor
  · have hdays : daysInZone [35, 32, 28, 25, 22] 30 true = 3 := by
      norm_num [daysInZone, isExtremeRsi, List.takeWhile]
    have hres : resolvingCond [35, 32, 28, 25, 22] 30 true = false := by
      simp [resolvingCond, hdays]
    refine ⟨_, by rw [classify_signal_lifecycle, if_neg (by norm_num)], ?_, ?_⟩
    · exact hdays
    · rw [hres, if_neg (by simp), hdays]
      rfl
  · intro h th os hlen hres
    rw [classify_signal_lifecycle, if_neg (by omega), hres]
    exact ⟨_, rfl, rfl, by rw [if_neg (by simp)]⟩

/-- C8 witness: the general mapping applied to the concrete scenario series,
where the resolving override indeed does not apply. -/
theorem C8_lifecycle_states_witness :
    ∃ r, classify_signal_lifecycle [35, 32, 28, 25, 22] 30 true = some r ∧
      r.days_in_zone = daysInZone [35, 32, 28, 25, 22] 30 true ∧
      r.state = stateOfDays (daysInZone [35, 32, 28, 25, 22] 30 true) :=
  C8_lifecycle_states.2 [35, 32, 28, 25, 22] 30 true (by norm_num)
    (by norm_num [resolvingCond, daysInZone, isExtremeRsi, List.takeWhile])

/-! ### Sector aggregator (src/sectors.py `calculate_sector_rsi`) -/

/-- One asset as seen by the per-sector RSI computation: an optional market
cap (absent key modelled as `none`) and a daily RSI. -/
structure SectorCoin where
  market_cap : Option ℚ
  daily_rsi : ℚ
deriving DecidableEq

/-- Python truthiness of `c.get("market_cap")`: `None` and `0` are falsy. -/
def capTruthy : Option ℚ → Bool
  | Option.none => false
  | some v => decide (v ≠ 0)

/-- Per-sector weighted RSI of `calculate_sector_rsi` (src/sectors.py lines
97-115): market-cap weighted mean when every coin has a truthy market cap and
the total cap is positive, otherwise the simple mean; rounded to 2 decimals.
`market_cap.getD 0` models the direct `c["market_cap"]` access, which the
all-truthy guard makes safe. -/
def sector_rsi_value (coins : List SectorCoin) : ℚ :=
  round2 (if (coins.all fun c => capTruthy c.market_cap) ∧ 0 < coins.length then
    (if 0 < (coins.map fun c => c.market_cap.getD 0).sum then
      (coins.map fun c =>
        c.daily_rsi * (c.market_cap.getD 0) / (coins.map fun c => c.market_cap.getD 0).sum).sum
    else (coins.map fun c => c.daily_rsi).sum / coins.length)
  else (coins.map fun c => c.daily_rsi).sum / coins.length)

/-- C9: a sector with two assets both at RSI 40, one with market cap 0 and
one with market cap 1000, yields sector RSI 40 through the simple-average
fallback (no division by zero); in general the weighted mean falls back to
the simple mean whenever some asset's market cap is missing or falsy, or the
sector's total market cap is 0. -/
theorem C9_sector_rsi_fallback :
    sector_rsi_value [⟨some 0, 40⟩, ⟨some 1000, 40⟩] = 40 ∧
    ∀ coins : List SectorCoin, coins ≠ [] →
      ((∃ c ∈ coins, capTruthy c.market_cap = false) ∨
        (coins.map fun c => c.market_cap.getD 0).sum = 0) →
      sector_rsi_value coins = round2 ((coins.map fun c => c.daily_rsi).sum / coins.length) := by
  constructor
  · norm_num [sector_rsi_value, capTruthy, round2, round_eq]
  · intro coins hne hfall
    rw [sector_rsi_value]
    rcases hfall with ⟨c, hc, hcf⟩ | htot
    · rw [if_neg]
      rintro ⟨hall, -⟩
      rw [List.all_eq_true] at hall
      rw [hall c hc] at hcf
      simp at hcf
    · by_cases hall : (coins.all fun c => capTruthy c.market_cap) ∧ 0 < coins.length
      · rw [if_pos hall, if_neg (by rw [htot]; norm_num)]
      · rw [if_neg hall]

/-- C9 witness: the general fallback applied to a concrete sector whose total
market cap is positive but whose first coin has a falsy market cap. -/
theorem C9_sector_rsi_fallback_witness :
    sector_rsi_value [⟨some 0, 10⟩, ⟨some 1000, 30⟩] =
      round2 ((([⟨some 0, 10⟩, ⟨some 1000, 30⟩] : List SectorCoin).map
        fun c => c.daily_rsi).sum / 2) :=
  C9_sector_rsi_fallback.2 [⟨some 0, 10⟩, ⟨some 1000, 30⟩] (by simp)
    (Or.inl ⟨⟨some 0, 10⟩, by norm_num, by norm_num [capTruthy]⟩)

/-! ### Volatility regime (src/indicators.py `detect_volatility_regime`) -/

/-- Volatility regime tags. -/
inductive VolRegime
  | compressed
  | normal
  | expanded
deriving DecidableEq

/-- Result record of `detect_volatility_regime`. -/
structure VolResult where
  current_atr : ℚ
  avg_atr : ℚ
  ratio : ℚ
  regime : VolRegime
  volatility_history : List ℚ
deriving DecidableEq

/-- True ranges (lines 329-332): `abs(close[i] - close[i-1])`. -/
def trueRanges (price_history : List ℚ) : List ℚ :=
  (price_history.zip (price_history.drop 1)).map fun p => |p.2 - p.1|

/-- `calculate_atr` helper (lines 335-338): the mean true range normalized as
a percentage of the price, 0 when the price is not positive. -/
def calcAtr (tr_slice : List ℚ) (price : ℚ) : ℚ :=
  if 0 < price then tr_slice.sum / tr_slice.length / price * 100 else 0

/-- Sliding ATR values of lines 345-359: for each `i in range(4*period)` the
normalized ATR of the period-sized true-range slice ending at
`end_idx = len(true_ranges) - (4*period - 1 - i)`, skipped when the slice
would start before index 0 or is shorter than `period`. Index arithmetic is
carried out in ℤ exactly as Python does before the `start_idx >= 0` guard. -/
def atrValues (ph : List ℚ) (period : ℕ) : List ℚ :=
  (List.range (4 * period)).filterMap fun i =>
    if 0 ≤ ((trueRanges ph).length : ℤ) - ((4 * period - 1 - i : ℕ) : ℤ) - (period : ℤ) then
      (if (((trueRanges ph).drop
            ((((trueRanges ph).length : ℤ) - ((4 * period - 1 - i : ℕ) : ℤ) -
              (period : ℤ)).toNat)).take period).length = period then
        some (calcAtr
          (((trueRanges ph).drop
            ((((trueRanges ph).length : ℤ) - ((4 * period - 1 - i : ℕ) : ℤ) -
              (period : ℤ)).toNat)).take period)
          (ph.getD ((((trueRanges ph).length : ℤ) -
            ((4 * period - 1 - i : ℕ) : ℤ)).toNat) 0))
      else Option.none)
    else Option.none

/-- Current true-range slice `true_ranges[-period:]` (the whole list for
`period = 0`, as in Python). -/
def currentTrSlice (ph : List ℚ) (period : ℕ) : List ℚ :=
  if period = 0 then trueRanges ph
  else (trueRanges ph).drop ((trueRanges ph).length - period)

/-- Current normalized ATR (lines 340-343). -/
def currentAtr (ph : List ℚ) (period : ℕ) : ℚ :=
  calcAtr (currentTrSlice ph period) (ph.getLastD 0)

/-- Average of the sliding ATR values (line 364). -/
def avgAtr (ph : List ℚ) (period : ℕ) : ℚ :=
  (atrValues ph period).sum / (atrValues ph period).length

/-- Ratio with the `avg_atr > 0` guard (line 367): 1.0 when the average ATR
is not positive. -/
def volRatio (ph : List ℚ) (period : ℕ) : ℚ :=
  if 0 < avgAtr ph period then currentAtr ph period / avgAtr ph period else 1

/-- Regime thresholds (lines 370-375). -/
def volRegimeOf (r : ℚ) : VolRegime :=
  if r < 0.7 then VolRegime.compressed
  else if 1.3 < r then VolRegime.expanded
  else VolRegime.normal

/-- Trailing 14-entry ratio history (line 378): each sliding ATR divided by
the average, 1.0 entries when the average ATR is not positive. -/
def ratioHistory (ph : List ℚ) (period : ℕ) : List ℚ :=
  ((atrValues ph period).drop ((atrValues ph period).length - 14)).map fun v =>
    if 0 < avgAtr ph period then round4 (v / avgAtr ph period) else 1

/-- `detect_volatility_regime` (src/indicators.py lines 306-386): `none` with
fewer than `4*period + 1` prices or when no sliding ATR value could be
computed. -/
def detect_volatility_regime (ph : List ℚ) (period : ℕ) : Option VolResult :=
  if ph.length < 4 * period + 1 then Option.none
  else if atrValues ph period = [] then Option.none
  else
    some ⟨round4 (currentAtr ph period), round4 (avgAtr ph period),
          round4 (volRatio ph period), volRegimeOf (volRatio ph period),
          ratioHistory ph period⟩

theorem trueRanges_length (ph : List ℚ) :
    (trueRanges ph).length = ph.length - 1 := by
  simp [trueRanges]

theorem trueRanges_replicate_zero (n : ℕ) (c : ℚ) :
    ∀ x ∈ trueRanges (List.replicate n c), x = 0 := by
  intro x hx
  rcases List.mem_map.mp hx with ⟨p, hp, rfl⟩
  have h1 : p.1 = c := List.eq_of_mem_replicate (List.of_mem_zip hp).1
  have h2 : p.2 = c := by
    have := (List.of_mem_zip hp).2
    rw [List.drop_replicate] at this
    exact List.eq_of_mem_replicate this
  rw [h1, h2]
  simp

theorem calcAtr_zero (s : List ℚ) (p : ℚ) (hs : ∀ y ∈ s, y = 0) :
    calcAtr s p = 0 := by
  rw [calcAtr, List.sum_eq_zero hs]
  split_ifs <;> simp

theorem atrValues_all_zero (n period : ℕ) (c : ℚ) :
    ∀ x ∈ atrValues (List.replicate n c) period, x = 0 := by
  intro x hx
  rcases List.mem_filterMap.mp hx with ⟨i, _, hfi⟩
  split_ifs at hfi
  · rcases Option.some.inj hfi with rfl
    exact calcAtr_zero _ _ fun y hy =>
      trueRanges_replicate_zero n c y
        (List.mem_of_mem_drop (List.mem_of_mem_take hy))

theorem atrValues_replicate_ne_nil (n period : ℕ) (c : ℚ)
    (hper : 1 ≤ period) (hn : 4 * period + 1 ≤ n) :
    atrValues (List.replicate n c) period ≠ [] := by
  have hlen : (trueRanges (List.replicate n c)).length = n - 1 := by
    rw [trueRanges_length, List.length_replicate]
  have hzero : ((4 * period - 1 - (4 * period - 1) : ℕ) : ℤ) = 0 := by
    norm_num
  apply List.ne_nil_of_mem (a := (0 : ℚ))
  apply List.mem_filterMap.mpr
  refine ⟨4 * period - 1, List.mem_range.mpr (by omega), ?_⟩
  rw [hlen, hzero]
  rw [if_pos (by omega)]
  rw [if_pos (by
    simp only [List.length_take, List.length_drop, hlen]
    omega)]
  congr 1
  apply calcAtr_zero
  intro y hy
  exact trueRanges_replicate_zero n c y
    (List.mem_of_mem_drop (List.mem_of_mem_take hy))

/-- C10: on a constant price series with at least `4*period + 1` points all
true ranges are 0, and the `avg_atr > 0` guard keeps the function away from
the division: it returns ratio 1.0, regime `normal`, current and average ATR
0, and a nonempty `volatility_history` consisting entirely of 1.0 entries. -/
theorem C10_constant_prices_volatility (n period : ℕ) (c : ℚ)
    (hper : 1 ≤ period) (hn : 4 * period + 1 ≤ n) :
    ∃ res, detect_volatility_regime (List.replicate n c) period = some res ∧
      res.ratio = 1 ∧ res.regime = VolRegime.normal ∧
      res.current_atr = 0 ∧ res.avg_atr = 0 ∧
      res.volatility_history ≠ [] ∧
      ∀ x ∈ res.volatility_history, x = 1 := by
  have hne := atrValues_replicate_ne_nil n period c hper hn
  have havg : avgAtr (List.replicate n c) period = 0 := by
    rw [avgAtr, List.sum_eq_zero (atrValues_all_zero n period c), zero_div]
  have hratio : volRatio (List.replicate n c) period = 1 := by
    rw [volRatio, havg, if_neg (lt_irrefl 0)]
  have hcur : currentAtr (List.replicate n c) period = 0 := by
    rw [currentAtr]
    apply calcAtr_zero
    intro y hy
    rw [currentTrSlice] at hy
    split_ifs at hy
    · exact trueRanges_replicate_zero n c y hy
    · exact trueRanges_replicate_zero n c y (List.mem_of_mem_drop hy)
  have heq : detect_volatility_regime (List.replicate n c) period =
      some ⟨round4 (currentAtr (List.replicate n c) period),
            round4 (avgAtr (List.replicate n c) period),
            round4 (volRatio (List.replicate n c) period),
            volRegimeOf (volRatio (List.replicate n c) period),
            ratioHistory (List.replicate n c) period⟩ := by
    rw [detect_volatility_regime,
      if_neg (by rw [List.length_replicate]; omega), if_neg hne]
  refine ⟨_, heq, ?_, ?_, ?_, ?_, ?_, ?_⟩
  · show round4 (volRatio (List.replicate n c) period) = 1
    rw [hratio]
    norm_num [round4, round_eq]
  · show volRegimeOf (volRatio (List.replicate n c) period) = VolRegime.normal
    rw [hratio]
    norm_num [volRegimeOf]
  · show round4 (currentAtr (List.replicate n c) period) = 0
    rw [hcur]
    norm_num [round4, round_eq]
  · show round4 (avgAtr (List.replicate n c) period) = 0
    rw [havg]
    norm_num [round4, round_eq]
  · show ratioHistory (List.replicate n c) period ≠ []
    have hpos : 0 < (atrValues (List.replicate n c) period).length :=
      List.length_pos.mpr hne
    rw [ratioHistory]
    intro hnil
    rw [List.map_eq_nil_iff, List.drop_eq_nil_iff] at hnil
    omega
  · show ∀ x ∈ ratioHistory (List.replicate n c) period, x = 1
    intro x hx
    rw [ratioHistory] at hx
    rcases List.mem_map.mp hx with ⟨v, _, rfl⟩
    rw [havg, if_neg (lt_irrefl 0)]

/-- C10 witness: the constant series of five 7s with period 1. -/
theorem C10_constant_prices_volatility_witness :
    ∃ res, detect_volatility_regime (List.replicate 5 7) 1 = some res ∧
      res.ratio = 1 ∧ res.regime = VolRegime.normal ∧
      res.current_atr = 0 ∧ res.avg_atr = 0 ∧
      res.volatility_history ≠ [] ∧
      ∀ x ∈ res.volatility_history, x = 1 :=
  C10_constant_prices_volatility 5 1 7 (by norm_num) (by norm_num)

end AssetPicker
